import Mathlib

/-
Verification of the cloud patch service (`plus/patches/cloudPatchService.ts`) and the
patch-details view-state reconciler (`plus/webviews/patchDetails/patchDetailsWebview.ts`).

Modelling conventions for the shallow embedding:
- every remote call / awaited dependency is a suspension point whose result is passed in
  explicitly as an `Except String _` (a rejected promise is `.error`) or as a plain value;
- `Promise.allSettled` results are `Except` values; `getSettledValue` (from
  `system/promise`) projects a fulfilled value and turns a rejection into `none`;
- TypeScript `T | undefined` is `Option T`; a thrown `TypeError` from dereferencing
  `undefined` is an `.error` of the embedding function;
- `Date` wrappers around timestamps are modelled as the timestamp itself (`Nat`);
- JSON request bodies are modelled as structures; a field that `JSON.stringify` would
  omit (value `undefined`) is an `Option` field with value `none`.
-/

/-- `getSettledValue` from `system/promise`: the value of a fulfilled settled result,
`none` (`undefined`) for a rejected one. -/
def getSettledValue {ε α : Type} : Except ε α → Option α
  | .ok a => some a
  | .error _ => none

/-- A remote provider attached to a git remote (`remote.provider`): `id`, `path`, `owner`. -/
structure RemoteProviderM where
  id : String
  path : String
  owner : String
deriving DecidableEq

/-- A git remote as returned by `getBestRemoteWithProvider`; its `provider` may be absent. -/
structure GitRemoteM where
  provider : Option RemoteProviderM
deriving DecidableEq

/-- The current user as returned by `getCurrentUser`; `name` and `email` may each be absent. -/
structure GitUserM where
  name : Option String
  email : Option String
deriving DecidableEq

/-- A branch as returned by `repository.getBranch()`. -/
structure GitBranchM where
  name : String
deriving DecidableEq

/-- A pre-signed blob endpoint `{url, method, headers: {Host: string[]}}`. -/
structure EndpointM where
  url : String
  method : String
  hostHeaders : List String
deriving DecidableEq

/-- A raw changeset row of `GET /v1/drafts/:id/changesets` (`patches` kept verbatim,
modelled as opaque identifiers). -/
structure ChangesetRowM where
  id : String
  createdAt : Nat
  updatedAt : Nat
  draftId : String
  gitProfileId : String
  parentChangesetId : String
  patches : List String
deriving DecidableEq

/-- A typed `CloudPatchChangeset` as produced by `CloudPatchService.getChangesets`. -/
structure CloudPatchChangesetM where
  id : String
  createdAt : Nat
  updatedAt : Nat
  draftId : String
  gitProfileId : String
  parentChangesetId : String
  patches : List String
deriving DecidableEq

/-- The raw draft row of `GET /v1/drafts/:id` (`.data`). -/
structure DraftRowM where
  id : String
  deepLink : String
  title : Option String
  description : Option String
  createdAt : Nat
  updatedAt : Nat
  createdBy : String
  isPublic : Bool
  organizationId : Option String
deriving DecidableEq

/-- A typed `CloudPatch` as assembled by `CloudPatchService.get`. -/
structure CloudPatchM where
  id : String
  linkUrl : String
  title : Option String
  description : Option String
  createdAt : Nat
  updatedAt : Nat
  createdBy : String
  isPublic : Bool
  organizationId : Option String
  changesets : List CloudPatchChangesetM
deriving DecidableEq

/-- The download request issued against a `secureDownloadData` endpoint:
`Accept: text/plain` and `Host` taken from the first entry of the endpoint's
`headers.Host` array (`headers?.['Host']?.['0'] ?? ''`). -/
structure DownloadRequestM where
  url : String
  method : String
  accept : String
  hostHeader : String
deriving DecidableEq

/-- A raw patch row of `GET /v1/drafts/:id/patches` / `GET /v1/patches/:id`. -/
structure PatchRowM where
  id : String
  draftId : String
  gitProfileId : String
  gitRepositoryName : String
  gitBranchName : String
  secureDownloadData : EndpointM
deriving DecidableEq

/-- `CloudPatchData` as returned by `getPatches` / `getPatch`. -/
structure CloudPatchDataM where
  id : String
  draftId : String
  gitProfileId : String
  gitRepositoryName : String
  gitBranchName : String
  contents : String
deriving DecidableEq

/-- One created patch inside the `POST .../changesets` response, carrying
`secureUploadData`. -/
structure CreatedPatchM where
  id : String
  secureUploadData : EndpointM
deriving DecidableEq

/-- The `.data` of the `POST /v1/drafts/:id/changesets` response. -/
structure ChangesetCreatedM where
  id : String
  draftId : String
  gitProfileId : String
  parentChangesetId : String
  createdAt : Nat
  updatedAt : Nat
  patches : List CreatedPatchM
deriving DecidableEq

/-- `gitRepoData` inside the changeset-creation request; `initialCommitSha = none`
means the field is omitted from the JSON body. -/
structure GitRepoDataM where
  initialCommitSha : Option String
deriving DecidableEq

/-- One entry of `patches` in the changeset-creation request body. -/
structure ChangesetPatchRequestM where
  baseCommitSha : String
  baseBranchName : String
  gitRepoData : GitRepoDataM
deriving DecidableEq

/-- The changeset-creation request body (`POST /v1/drafts/:draftId/changesets`). -/
structure ChangesetRequestM where
  gitProfileId : String
  patches : List ChangesetPatchRequestM
deriving DecidableEq

/-- The blob upload request `create` issues against `secureUploadData`. -/
structure UploadRequestM where
  url : String
  method : String
  contentType : String
  hostHeader : String
  body : String
deriving DecidableEq

/-- The `PATCH /v1/patches/:id` finalization body; `gitRepositoryName` is
`remote.provider.path.split('/')[1]`, which may be absent. -/
structure FinalizeRequestM where
  baseCommitSha : String
  gitProfileId : String
  gitProvider : String
  gitRepositoryName : Option String
  gitRepositoryOwner : String
  gitBranchName : String
deriving DecidableEq

/-- Auxiliary recursion for `jsSplit`. -/
def jsSplitGo (sep : Char) : List Char → List Char → List String
  | [], acc => [String.mk acc.reverse]
  | c :: rest, acc =>
    if c = sep then String.mk acc.reverse :: jsSplitGo sep rest []
    else jsSplitGo sep rest (c :: acc)

/-- JavaScript `s.split(sep)` for a one-character separator (`''.split('/')` is
`['']`, a trailing separator yields a trailing empty piece). -/
def jsSplit (sep : Char) (s : String) : List String :=
  jsSplitGo sep s.toList []

namespace CloudPatchService

/-- `remote?.provider` after `remote = getSettledValue(remoteResult)`; the settled value
is itself `GitRemote | undefined`. -/
def resolvedProvider (remoteResult : Except String (Option GitRemoteM)) : Option RemoteProviderM :=
  ((getSettledValue remoteResult).bind id).bind fun r => r.provider

/-- `user?.email ?? user?.name ?? ''` after `user = getSettledValue(userResult)`. -/
def resolvedGitProfileId (userResult : Except String (Option GitUserM)) : String :=
  let user := (getSettledValue userResult).bind id
  ((user.bind fun u => u.email).orElse fun _ => user.bind fun u => u.name).getD ""

/-- `branch?.name ?? ''` after `branch = getSettledValue(branchResult)`. -/
def resolvedBranchName (branchResult : Except String (Option GitBranchM)) : String :=
  (((getSettledValue branchResult).bind id).map fun b => b.name).getD ""

/-- What the ancillary-resolution phase of `create` produces when it does not throw. -/
structure AncillaryResolution where
  provider : RemoteProviderM
  gitProfileId : String
  branchName : String
deriving DecidableEq

/-- The opening of `CloudPatchService.create`: the three `Promise.allSettled` results are
projected with `getSettledValue`; no provider is a hard error, a missing user identity
degrades to an empty profile id and a missing branch to an empty branch name. -/
def resolveCreateAncillary (remoteResult : Except String (Option GitRemoteM))
    (userResult : Except String (Option GitUserM))
    (branchResult : Except String (Option GitBranchM)) : Except String AncillaryResolution :=
  match resolvedProvider remoteResult with
  | none => .error "No Git provider found"
  | some prov =>
    .ok { provider := prov, gitProfileId := resolvedGitProfileId userResult,
          branchName := resolvedBranchName branchResult }

/-- The `initialCommitSha` field of `gitRepoData`:
`...(repoFirstCommitSha != null && repoFirstCommitSha != '-' && { initialCommitSha })` —
present exactly when the id is non-null and not the `'-'` sentinel. -/
def gitRepoDataInitialCommitSha (repoFirstCommitSha : Option String) : Option String :=
  match repoFirstCommitSha with
  | none => none
  | some s => if s = "-" then none else some s

/-- The claim's filter, written from the spec's words for comparison: include the first
commit id only if it is resolvable and neither empty nor the sentinel placeholder. -/
def specInitialCommitSha (repoFirstCommitSha : Option String) : Option String :=
  match repoFirstCommitSha with
  | none => none
  | some s => if s = "" ∨ s = "-" then none else some s

/-- All suspension-point results `create` consumes, in program order. `newDraftResult`
is the result of the inner `this.get(draftId)` call, typed `CloudPatch | undefined`
per that method's signature. -/
structure CreateEnv where
  remoteResult : Except String (Option GitRemoteM)
  userResult : Except String (Option GitUserM)
  branchResult : Except String (Option GitBranchM)
  draftPostResult : Except String String
  newDraftResult : Except String (Option CloudPatchM)
  repoFirstCommitSha : Option String
  changesetPostResult : Except String ChangesetCreatedM
  uploadResult : Except String Unit
  finalizePatchResult : Except String Unit

/-- Everything observable about a successful `create`: the three request bodies it built
and the value it returns (`{...newDraft, changesets: [changesetCreatedData]}`). -/
structure CreateOutcome where
  changesetRequest : ChangesetRequestM
  uploadRequest : UploadRequestM
  finalizeRequest : FinalizeRequestM
  draft : CloudPatchM
  createdChangeset : ChangesetCreatedM
deriving DecidableEq

/-- `CloudPatchService.create`. `.ok none` is the early `return undefined` taken when the
freshly fetched draft is null; `.error` is a thrown error (no provider, a rejected remote
call, or the `TypeError` from `changesetCreatedData.patches[0]` being absent). -/
def create (env : CreateEnv) (baseSha contents : String) : Except String (Option CreateOutcome) := do
  let anc ← resolveCreateAncillary env.remoteResult env.userResult env.branchResult
  let _draftId ← env.draftPostResult
  let newDraft? ← env.newDraftResult
  match newDraft? with
  | none => pure none
  | some newDraft => do
    let reqPatch : ChangesetPatchRequestM :=
      { baseCommitSha := baseSha, baseBranchName := anc.branchName,
        gitRepoData := { initialCommitSha := gitRepoDataInitialCommitSha env.repoFirstCommitSha } }
    let changesetRequest : ChangesetRequestM :=
      { gitProfileId := anc.gitProfileId, patches := [reqPatch] }
    let created ← env.changesetPostResult
    match created.patches.head? with
    | none => .error "TypeError: created changeset has no patches"
    | some patch => do
      let sud := patch.secureUploadData
      let uploadRequest : UploadRequestM :=
        { url := sud.url, method := sud.method, contentType := "plain/text",
          hostHeader := sud.hostHeaders.head?.getD "", body := contents }
      let _ ← env.uploadResult
      let finalizeRequest : FinalizeRequestM :=
        { baseCommitSha := baseSha, gitProfileId := anc.gitProfileId,
          gitProvider := anc.provider.id,
          gitRepositoryName := (jsSplit '/' anc.provider.path).get? 1,
          gitRepositoryOwner := anc.provider.owner,
          gitBranchName := anc.branchName }
      let _ ← env.finalizePatchResult
      pure (some { changesetRequest := changesetRequest, uploadRequest := uploadRequest,
                   finalizeRequest := finalizeRequest, draft := newDraft,
                   createdChangeset := created })

/-- Row conversion inside `getChangesets` (the `Date` wrappers are timestamp
pass-throughs in the model; `patches` is preserved verbatim). -/
def convertChangesetRow (r : ChangesetRowM) : CloudPatchChangesetM :=
  { id := r.id, createdAt := r.createdAt, updatedAt := r.updatedAt, draftId := r.draftId,
    gitProfileId := r.gitProfileId, parentChangesetId := r.parentChangesetId,
    patches := r.patches }

/-- `CloudPatchService.getChangesets`. Its input is the changesets fetch outcome:
`.error` is a rejected fetch; `.ok none` is a response whose JSON has no `data` array
(e.g. the 404 body noted in the source), on which `changesetsData.map` throws a
`TypeError`; `.ok (some rows)` maps the rows. Note the function never produces
`.ok none` itself: its declared `| undefined` result does not occur. -/
def getChangesets (changesetsFetch : Except String (Option (List ChangesetRowM))) :
    Except String (Option (List CloudPatchChangesetM)) :=
  match changesetsFetch with
  | .error e => .error e
  | .ok none => .error "TypeError: changesetsData is undefined"
  | .ok (some rows) => .ok (some (rows.map convertChangesetRow))

/-- Assembly of the `CloudPatch` returned by `get`. -/
def mkCloudPatch (d : DraftRowM) (cs : List CloudPatchChangesetM) : CloudPatchM :=
  { id := d.id, linkUrl := d.deepLink, title := d.title, description := d.description,
    createdAt := d.createdAt, updatedAt := d.updatedAt, createdBy := d.createdBy,
    isPublic := d.isPublic, organizationId := d.organizationId, changesets := cs }

/-- `CloudPatchService.get`: fetch the draft row, then the changesets (separate call,
via `getChangesets`), and assemble with `changesets: changeSets ?? []`. -/
def get (draftFetch : Except String DraftRowM)
    (changesetsFetch : Except String (Option (List ChangesetRowM))) :
    Except String CloudPatchM := do
  let d ← draftFetch
  let cs ← getChangesets changesetsFetch
  pure (mkCloudPatch d (cs.getD []))

/-- The download request built for an endpoint: `Accept: text/plain`,
`Host: headers?.['Host']?.['0'] ?? ''`. -/
def downloadRequest (e : EndpointM) : DownloadRequestM :=
  { url := e.url, method := e.method, accept := "text/plain",
    hostHeader := e.hostHeaders.head?.getD "" }

/-- The body of the `Promise.allSettled` map inside `getPatches`: for each row,
optionally download its contents (the per-item suspension point is the `download`
environment function); the first component records the download requests actually
issued. Without `includeContents` the contents stay `''`. -/
def getPatchesItem (includeContents : Bool) (download : DownloadRequestM → Except String String)
    (row : PatchRowM) : List DownloadRequestM × Except String CloudPatchDataM :=
  if includeContents then
    let req := downloadRequest row.secureDownloadData
    match download req with
    | .error e => ([req], .error e)
    | .ok text =>
      ([req],
        .ok { id := row.id, draftId := row.draftId, gitProfileId := row.gitProfileId,
              gitRepositoryName := row.gitRepositoryName, gitBranchName := row.gitBranchName,
              contents := text })
  else
    ([],
      .ok { id := row.id, draftId := row.draftId, gitProfileId := row.gitProfileId,
            gitRepositoryName := row.gitRepositoryName, gitBranchName := row.gitBranchName,
            contents := "" })

/-- `CloudPatchService.getPatches`, given the listed rows: each row is settled
independently and the settled results are projected with `getSettledValue`
(`patches.map(patch => getSettledValue(patch))`), so a failed item becomes `none`.
The first component collects every download request issued. -/
def getPatches (includeContents : Bool) (download : DownloadRequestM → Except String String)
    (rows : List PatchRowM) : List DownloadRequestM × List (Option CloudPatchDataM) :=
  let items := rows.map (getPatchesItem includeContents download)
  ((items.map Prod.fst).flatten, items.map fun it => getSettledValue it.2)

/-- `CloudPatchService.getPatchContents`: fetch the patch row (yielding its
`secureDownloadData`), then download the raw text from the pre-signed endpoint. -/
def getPatchContents (patchFetch : Except String EndpointM)
    (download : DownloadRequestM → Except String String) : Except String String := do
  let e ← patchFetch
  download (downloadRequest e)

/-- `CloudPatchService.getPatch`: row metadata plus the downloaded contents. -/
def getPatch (patchFetch : Except String PatchRowM)
    (download : DownloadRequestM → Except String String) : Except String CloudPatchDataM := do
  let row ← patchFetch
  let text ← download (downloadRequest row.secureDownloadData)
  pure { id := row.id, draftId := row.draftId, gitProfileId := row.gitProfileId,
         gitRepositoryName := row.gitRepositoryName, gitBranchName := row.gitBranchName,
         contents := text }

end CloudPatchService

/-- A repository reference (only its `uri` matters to this slice). -/
structure RepoM where
  uri : String
deriving DecidableEq

/-- A materialized git commit (identified by its sha). -/
structure CommitM where
  sha : String
deriving DecidableEq

/-- A `GitPatch` / `GitCloudPatch` (`git/models/patch.ts`): immutable `contents`,
mutable enrichment fields `baseRef`, `files`, `repo`, `commit`. The rendered file list
is abstracted to the file paths. -/
structure GitPatchM where
  contents : String
  baseRef : Option String
  files : Option (List String)
  repo : Option RepoM
  commit : Option CommitM
deriving DecidableEq

/-- A changeset as held on a `CloudPatch` (`changesets[i].patches`). -/
structure PatchChangesetM where
  patches : List GitPatchM
deriving DecidableEq

/-- `Context.patch`: a `LocalPatch` (wrapping one `GitPatch`) or a `CloudPatch`
(wrapping changesets of `GitCloudPatch`es). -/
inductive PatchSetM
  | localPS (patch : GitPatchM)
  | cloudPS (changesets : List PatchChangesetM)
deriving DecidableEq

/-- The details projection's output, reduced to the claim-relevant shape: the
local/cloud discriminant and the (optional) file list; icon rendering is elided. -/
structure PatchDetailsM where
  isLocal : Bool
  files : Option (List String)
deriving DecidableEq

/-- What one `getDetailsModel` call produces: the details object and whether the
one-shot `setTimeout` enrichment task was scheduled. -/
structure DetailsResultM where
  details : PatchDetailsM
  enrichmentScheduled : Bool
deriving DecidableEq

namespace PatchDetailsProvider

/-- Dereference the current patch out of the patchset:
`patchset.patch` for a local patch, `patchset.changesets[0].patches[0]` for a cloud
patch. `none` models the `TypeError` thrown when the dereference hits `undefined`. -/
def derefDetailsPatch : PatchSetM → Option GitPatchM
  | .localPS p => some p
  | .cloudPS css => css.head?.bind fun cs => cs.patches.head?

/-- `patch.files = files?.files` mutates the patch object nested in the patchset;
in the embedding the patchset is rebuilt with the dereferenced patch's `files` set. -/
def setPatchFiles (ps : PatchSetM) (fs : Option (List String)) : PatchSetM :=
  match ps with
  | .localPS p => .localPS { p with files := fs }
  | .cloudPS css =>
    .cloudPS (css.modifyHead fun cs =>
      { cs with patches := cs.patches.modifyHead fun p => { p with files := fs } })

/-- Everything the `setTimeout` enrichment task in `getDetailsModel` does once the
diff-file computation resolves: store the files on the same patch object, call
`updatePendingContext({ patch: patchset }, true)` and then `updateState()` — whose
`immediate` parameter defaults to `false`, i.e. a debounced notification. -/
structure EnrichmentRun where
  updatedPatchset : PatchSetM
  pendingUpdateForce : Bool
  notifyImmediate : Bool
deriving DecidableEq

/-- The enrichment task body, as a function of the awaited
`getDiffFiles('', patch.contents)` result (`files?.files`). -/
def enrichmentTask (ps : PatchSetM) (diffFiles : Option (List String)) : EnrichmentRun :=
  { updatedPatchset := setPatchFiles ps diffFiles
    pendingUpdateForce := true
    notifyImmediate := false }

/-- `getDetailsModel`: dereference the patch; when its file-change metadata is missing,
schedule the one-shot enrichment task (`enrichmentScheduled`) and return the details
without `files` (the projection reads `patch.files` before the task ever runs). -/
def getDetailsModel (ps : PatchSetM) : Option DetailsResultM :=
  (derefDetailsPatch ps).map fun p =>
    { details :=
        { isLocal := (match ps with | .localPS _ => true | .cloudPS _ => false)
          files := p.files }
      enrichmentScheduled := p.files.isNone }

/-- The interactive inputs and the commit materialization suspension point of
`getUnreachablePatchCommit`: the repository picker result, the base commit picker
result (its sha), and `createUnreachableCommitForPatch (repoUri, contents, baseRef)`. -/
structure UnreachableEnv where
  repoPick : Option RepoM
  basePick : Option String
  materialize : String → String → String → Except String CommitM

/-- The observable outcome of one `getUnreachablePatchCommit` run: the returned commit,
the patch object's final (mutated) state, which pickers were prompted, and the error
message shown, if any. -/
structure UnreachableOutcome where
  result : Option CommitM
  patch : GitPatchM
  promptedRepo : Bool
  promptedBase : Bool
  errorShown : Option String
deriving DecidableEq

/-- The `patch.commit == null` step: materialize an unreachable commit for the patch;
on failure show an error message and reset `patch.baseRef`, then return `patch.commit`
(still unset). -/
def ensureCommit (env : UnreachableEnv) (repoV : RepoM) (p : GitPatchM)
    (pr pb : Bool) : UnreachableOutcome :=
  match p.commit with
  | some _ =>
    { result := p.commit, patch := p, promptedRepo := pr, promptedBase := pb,
      errorShown := none }
  | none =>
    match env.materialize repoV.uri p.contents (p.baseRef.getD "HEAD") with
    | .ok c =>
      { result := some c, patch := { p with commit := some c }, promptedRepo := pr,
        promptedBase := pb, errorShown := none }
    | .error msg =>
      { result := none, patch := { p with baseRef := none }, promptedRepo := pr,
        promptedBase := pb,
        errorShown := some ("Unable preview the patch on base "
          ++ (match p.baseRef with | some b => b | none => "undefined") ++ ": " ++ msg) }

/-- The `patch.baseRef == null` step: prompt the base commit picker; a declined pick
returns `undefined`, an accepted pick stores its sha before materializing. -/
def ensureBase (env : UnreachableEnv) (repoV : RepoM) (p : GitPatchM)
    (pr : Bool) : UnreachableOutcome :=
  match p.baseRef with
  | some _ => ensureCommit env repoV p pr false
  | none =>
    match env.basePick with
    | none =>
      { result := none, patch := p, promptedRepo := pr, promptedBase := true,
        errorShown := none }
    | some sha => ensureCommit env repoV { p with baseRef := some sha } pr true

/-- `getUnreachablePatchCommit`: switch on the context's patch (throwing
`Invalid patch type` when it is unset, and a `TypeError` when a cloud patchset has no
first patch), then ensure repository, base ref and materialized commit in that order. -/
def getUnreachablePatchCommit (env : UnreachableEnv) (ctxPatch : Option PatchSetM) :
    Except String UnreachableOutcome :=
  match ctxPatch with
  | none => .error "Invalid patch type"
  | some ps =>
    match derefDetailsPatch ps with
    | none => .error "TypeError: patch is undefined"
    | some p =>
      match p.repo with
      | some r => .ok (ensureBase env r p false)
      | none =>
        match env.repoPick with
        | none =>
          .ok { result := none, patch := p, promptedRepo := true, promptedBase := false,
                errorShown := none }
        | some r => .ok (ensureBase env r { p with repo := some r } true)

end PatchDetailsProvider

/-- A committed view `Context`, field-indexed: `κ` names the fields, `ν` their values.
The provider's concrete `Context` is an instance with three fields
(`patch`, `preferences`, `visible`). -/
def Ctx (κ ν : Type) := κ → ν

/-- A sparse overlay (`Partial Context` in the source): per field, an optional value. -/
def Overlay (κ ν : Type) := κ → Option ν

/-- The empty overlay (`{}`). -/
def emptyOverlay {κ ν : Type} : Overlay κ ν := fun _ => none

/-- The JS spread `{ ...context, ...overlay }`: per field, the overlay's value when
present wins, else the committed value (shallow, last-writer-wins). -/
def spreadCtx {κ ν : Type} (c : Ctx κ ν) (p : Overlay κ ν) : Ctx κ ν :=
  fun k => (p k).getD (c k)

/-- The effective context a consumer would see: the (possibly absent) pending overlay
spread over the committed context. -/
def effOf {κ ν : Type} (c : Ctx κ ν) (p : Option (Overlay κ ν)) : Ctx κ ν :=
  fun k => ((p.getD emptyOverlay) k).getD (c k)

/-- The reconciler's state: committed context (`_context`), pending overlay
(`_pendingContext`), and whether a debounced notify is scheduled
(`_notifyDidChangeStateDebounced` armed). -/
structure RecState (κ ν : Type) where
  context : Ctx κ ν
  pending : Option (Overlay κ ν)
  debounceScheduled : Bool

namespace PatchDetailsProvider

/-- One entry of the update object, visited in `Object.entries` order. Modelled from
the spec: a touched field is written into the pending overlay (and counts as a change)
unless `force` is `false` and its value equals the field's current effective value. -/
def upcStep {κ ν : Type} [DecidableEq κ] [DecidableEq ν] (current : Ctx κ ν)
    (force : Bool) (acc : Bool × Option (Overlay κ ν)) (kv : κ × ν) :
    Bool × Option (Overlay κ ν) :=
  if force = false ∧ kv.2 = effOf current acc.2 kv.1 then acc
  else (true, some (fun k => if k = kv.1 then some kv.2 else (acc.2.getD emptyOverlay) k))

/-- Modelled from the spec: the free function `updatePendingContext` (from
`webviews/webviewController`, outside this slice) shallow-merges the update into the
pending overlay per field and reports whether anything actually changed
(value-equality per touched field); `force` bypasses the change-detection
short-circuit. An update object is its `Object.entries` list. -/
def updatePendingContext {κ ν : Type} [DecidableEq κ] [DecidableEq ν] (current : Ctx κ ν)
    (pending : Option (Overlay κ ν)) (update : List (κ × ν)) (force : Bool) :
    Bool × Option (Overlay κ ν) :=
  update.foldl (upcStep current force) (false, pending)

/-- The provider's private `updatePendingContext` wrapper: assign the merged overlay to
`_pendingContext` only when something changed. -/
def applyPendingUpdate {κ ν : Type} [DecidableEq κ] [DecidableEq ν] (s : RecState κ ν)
    (update : List (κ × ν)) (force : Bool) : RecState κ ν :=
  let r := updatePendingContext s.context s.pending update force
  if r.1 then { s with pending := r.2 } else s

/-- `notifyDidChangeState(force)`: cancel the debounced call; early-return (`false`,
no notification) when `force` is unset and there is no pending overlay; otherwise
commit `{ ...context, ...pending }`, clear the pending overlay, and notify with a
snapshot built (`getState`) from the resulting context — returned as the second
component (`none` = no notification was sent). -/
def notifyDidChangeState {κ ν : Type} (force : Bool) (s : RecState κ ν) :
    RecState κ ν × Option (Ctx κ ν) :=
  if force = false ∧ s.pending.isSome = false then
    ({ s with debounceScheduled := false }, none)
  else
    match s.pending with
    | some p =>
      let c := spreadCtx s.context p
      ({ context := c, pending := none, debounceScheduled := false }, some c)
    | none => ({ s with debounceScheduled := false }, some s.context)

/-- One reconciler event: an `updatePending` mutation (its `updatePendingContext` call
followed by `updateState()` with `immediate = false`), or the expiry of the trailing
debounce window. -/
inductive REvent (κ ν : Type)
  | update (entries : List (κ × ν))
  | timer

/-- Event semantics. An update merges into the pending overlay and (re)arms the
debounce (`updateState(false)`); the timer expiry invokes `notifyDidChangeState()`
when armed. The second component lists the contexts from which emitted snapshots
were built. -/
def stepEvent {κ ν : Type} [DecidableEq κ] [DecidableEq ν] (s : RecState κ ν) :
    REvent κ ν → RecState κ ν × List (Ctx κ ν)
  | .update entries =>
    ({ applyPendingUpdate s entries false with debounceScheduled := true }, [])
  | .timer =>
    if s.debounceScheduled then
      let r := notifyDidChangeState false s
      (r.1, r.2.toList)
    else (s, [])

/-- Run a sequence of reconciler events, collecting every notification. -/
def runEvents {κ ν : Type} [DecidableEq κ] [DecidableEq ν] (s : RecState κ ν) :
    List (REvent κ ν) → RecState κ ν × List (Ctx κ ν)
  | [] => (s, [])
  | e :: es =>
    let r := stepEvent s e
    let rest := runEvents r.1 es
    (rest.1, r.2 ++ rest.2)

/-- Assign one update entry into a context (the spec's idealized per-field write). -/
def assignEntry {κ ν : Type} [DecidableEq κ] (c : Ctx κ ν) (kv : κ × ν) : Ctx κ ν :=
  fun k => if k = kv.1 then kv.2 else c k

/-- Apply a whole update object to a context, entry by entry. -/
def specApply {κ ν : Type} [DecidableEq κ] (c : Ctx κ ν) (entries : List (κ × ν)) : Ctx κ ν :=
  entries.foldl assignEntry c

/-- The shallow last-writer-wins merge of a burst of partial updates over a context. -/
def specMergeAll {κ ν : Type} [DecidableEq κ] (c : Ctx κ ν)
    (ups : List (List (κ × ν))) : Ctx κ ν :=
  ups.foldl specApply c

end PatchDetailsProvider

/-- A concrete provider/remote used by witnesses. -/
def provider0 : RemoteProviderM :=
  { id := "github", path := "gitkraken/vscode-gitlens", owner := "gitkraken" }

/-- A concrete remote carrying `provider0`. -/
def remote0 : GitRemoteM := { provider := some provider0 }

/-- A concrete pre-signed endpoint. -/
def ep0 : EndpointM := { url := "https://blob.example/p1", method := "PUT", hostHeaders := ["blob.example"] }

/-- A concrete created patch row carrying `secureUploadData`. -/
def createdPatch0 : CreatedPatchM := { id := "patch-1", secureUploadData := ep0 }

/-- A concrete changeset-creation response. -/
def changesetCreated0 : ChangesetCreatedM :=
  { id := "cs-1", draftId := "draft-1", gitProfileId := "dev@example.com",
    parentChangesetId := "", createdAt := 1, updatedAt := 2, patches := [createdPatch0] }

/-- A concrete draft row. -/
def draftRow0 : DraftRowM :=
  { id := "draft-1", deepLink := "https://gk.example/d/draft-1", title := none,
    description := none, createdAt := 1, updatedAt := 2, createdBy := "creator",
    isPublic := false, organizationId := none }

/-- The `CloudPatch` assembled from `draftRow0` with no changesets. -/
def cloudPatch0 : CloudPatchM := CloudPatchService.mkCloudPatch draftRow0 []

/-- A fully successful `create` environment (user and branch resolution rejected, to
exercise the degradation paths), parameterized by the resolved first-commit id. -/
def createEnv0 (sha : Option String) : CloudPatchService.CreateEnv :=
  { remoteResult := .ok (some remote0), userResult := .error "no user",
    branchResult := .error "no branch", draftPostResult := .ok "draft-1",
    newDraftResult := .ok (some cloudPatch0), repoFirstCommitSha := sha,
    changesetPostResult := .ok changesetCreated0, uploadResult := .ok (),
    finalizePatchResult := .ok () }

/-- A concrete patch row for batch tests, keyed by id and download url. -/
def patchRow0 (i u : String) : PatchRowM :=
  { id := i, draftId := "draft-1", gitProfileId := "dev@example.com",
    gitRepositoryName := "vscode-gitlens", gitBranchName := "main",
    secureDownloadData := { url := u, method := "GET", hostHeaders := ["blob.example"] } }

/-- Three patch rows whose download urls are `u1`, `u2`, `u3`. -/
def rows3 : List PatchRowM := [patchRow0 "1" "u1", patchRow0 "2" "u2", patchRow0 "3" "u3"]

/-- A download environment that fails exactly for url `u2` and otherwise returns the
url as the content. -/
def dl3 : DownloadRequestM → Except String String :=
  fun req => if req.url = "u2" then .error "boom" else .ok req.url

/-- A concrete `getUnreachablePatchCommit` environment: both pickers declined,
materialization always throwing. -/
def unreachableEnv0 : PatchDetailsProvider.UnreachableEnv :=
  { repoPick := none, basePick := none, materialize := fun _ _ _ => .error "bad object" }

/-- A concrete patch with repository and base set but no materialized commit. -/
def gitPatch0 : GitPatchM :=
  { contents := "diff --git", baseRef := some "abc123", files := none,
    repo := some { uri := "file:///repo" }, commit := none }

/-- A concrete local patchset with missing file-change metadata. -/
def patchset0 : PatchSetM :=
  .localPS { contents := "diff --git", baseRef := none, files := none, repo := none,
             commit := none }

/-- A two-field context type for the reconciler's concrete scenarios. -/
inductive FieldAB
  | a
  | b
deriving DecidableEq

/-- The all-zero committed context over `FieldAB`. -/
def ctxZero : Ctx FieldAB Nat := fun _ => 0

/-- A committed context with `a = 5`, `b = 0`. -/
def ctxA5 : Ctx FieldAB Nat := fun k => match k with | .a => 5 | .b => 0

/-- A quiescent reconciler state over `ctxZero`. -/
def recStateZero : RecState FieldAB Nat := { context := ctxZero, pending := none, debounceScheduled := false }

/-- A quiescent reconciler state over `ctxA5`. -/
def recStateA5 : RecState FieldAB Nat := { context := ctxA5, pending := none, debounceScheduled := false }

/-- The reconciler state after `updatePending({a: 1})` from `recStateZero`. -/
def recStateEx1 : RecState FieldAB Nat :=
  PatchDetailsProvider.applyPendingUpdate recStateZero [(FieldAB.a, 1)] false

/-- The reconciler state after a further `updatePending({a: 2, b: 3})`. -/
def recStateEx2 : RecState FieldAB Nat :=
  PatchDetailsProvider.applyPendingUpdate recStateEx1 [(FieldAB.a, 2), (FieldAB.b, 3)] false

/-- The concrete outcome of `create (createEnv0 (some "c0ffee")) "base1" "diff --git a"`. -/
def createOutcome0 : CloudPatchService.CreateOutcome :=
  { changesetRequest :=
      { gitProfileId := "",
        patches := [{ baseCommitSha := "base1", baseBranchName := "",
                      gitRepoData := { initialCommitSha := some "c0ffee" } }] }
    uploadRequest :=
      { url := "https://blob.example/p1", method := "PUT", contentType := "plain/text",
        hostHeader := "blob.example", body := "diff --git a" }
    finalizeRequest :=
      { baseCommitSha := "base1", gitProfileId := "", gitProvider := "github",
        gitRepositoryName := some "vscode-gitlens", gitRepositoryOwner := "gitkraken",
        gitBranchName := "" }
    draft := cloudPatch0
    createdChangeset := changesetCreated0 }

/-- `foldUpdates s ups`: the reconciler state after the burst of update events `ups`
(each one an `updatePendingContext` merge followed by arming the debounce). -/
def PatchDetailsProvider.foldUpdates {κ ν : Type} [DecidableEq κ] [DecidableEq ν]
    (s : RecState κ ν) (ups : List (List (κ × ν))) : RecState κ ν :=
  ups.foldl (fun t entries =>
    { PatchDetailsProvider.applyPendingUpdate t entries false with debounceScheduled := true }) s

/-- C1: In `CloudPatchService.create`, the three ancillary resolutions are fanned out
with collect-all-settled semantics and consumed independently: the resolution phase
succeeds exactly when a provider was found (and `create` throws `No Git provider found`
otherwise), while a rejected user resolution degrades to an empty git profile id and a
rejected branch resolution to an empty branch name instead of failing. -/
theorem C1_create_ancillary_fanout
    (r : Except String (Option GitRemoteM)) (u : Except String (Option GitUserM))
    (b : Except String (Option GitBranchM)) :
    ((∃ res, CloudPatchService.resolveCreateAncillary r u b = .ok res) ↔
      (CloudPatchService.resolvedProvider r).isSome = true)
    ∧ (∀ p, CloudPatchService.resolvedProvider r = some p →
        CloudPatchService.resolveCreateAncillary r u b =
          .ok { provider := p, gitProfileId := CloudPatchService.resolvedGitProfileId u,
                branchName := CloudPatchService.resolvedBranchName b })
    ∧ (∀ e, u = .error e → CloudPatchService.resolvedGitProfileId u = "")
    ∧ (∀ e, b = .error e → CloudPatchService.resolvedBranchName b = "")
    ∧ (∀ env : CloudPatchService.CreateEnv, ∀ bs cs, env.remoteResult = r →
        CloudPatchService.resolvedProvider r = none →
        CloudPatchService.create env bs cs = .error "No Git provider found") := by
  refine ⟨?_, ?_, ?_, ?_, ?_⟩
  · cases h : CloudPatchService.resolvedProvider r <;>
      simp [CloudPatchService.resolveCreateAncillary, h]
  · intro p hp
    simp [CloudPatchService.resolveCreateAncillary, hp]
  · intro e he; subst he; rfl
  · intro e he; subst he; rfl
  · intro env bs cs henv hnone
    have hres : CloudPatchService.resolveCreateAncillary env.remoteResult env.userResult
        env.branchResult = .error "No Git provider found" := by
      rw [henv]
      simp [CloudPatchService.resolveCreateAncillary, hnone]
    unfold CloudPatchService.create
    rw [hres]
    rfl

/-- Witness for C1 at a concrete input: provider present, user and branch rejected. -/
theorem C1_create_ancillary_fanout_witness :
    CloudPatchService.resolveCreateAncillary (.ok (some remote0)) (.error "no user")
        (.error "no branch")
      = .ok { provider := provider0, gitProfileId := "", branchName := "" } :=
  (C1_create_ancillary_fanout (.ok (some remote0)) (.error "no user")
    (.error "no branch")).2.1 provider0 rfl

/-- C3: with `includeContents`, `getPatches` settles each row's download independently:
the result list has the same length and order as the listed rows; the item at index `i`
depends only on row `i` (it is `none` exactly when that row's download failed, and
carries that row's metadata plus the downloaded text on success). -/
theorem C3_getPatches_batch_isolation
    (download : DownloadRequestM → Except String String) (rows : List PatchRowM) :
    ((CloudPatchService.getPatches true download rows).2.length = rows.length)
    ∧ (∀ i row, rows.get? i = some row →
        (CloudPatchService.getPatches true download rows).2.get? i =
          some (getSettledValue (CloudPatchService.getPatchesItem true download row).2))
    ∧ (∀ row : PatchRowM, ∀ e,
        download (CloudPatchService.downloadRequest row.secureDownloadData) = .error e →
        getSettledValue (CloudPatchService.getPatchesItem true download row).2 = none)
    ∧ (∀ row : PatchRowM, ∀ t,
        download (CloudPatchService.downloadRequest row.secureDownloadData) = .ok t →
        getSettledValue (CloudPatchService.getPatchesItem true download row).2 =
          some { id := row.id, draftId := row.draftId, gitProfileId := row.gitProfileId,
                 gitRepositoryName := row.gitRepositoryName,
                 gitBranchName := row.gitBranchName, contents := t }) := by
  refine ⟨?_, ?_, ?_, ?_⟩
  · simp [CloudPatchService.getPatches]
  · intro i row h
    have hmap : (CloudPatchService.getPatches true download rows).2 =
        rows.map fun row =>
          getSettledValue (CloudPatchService.getPatchesItem true download row).2 := by
      simp only [CloudPatchService.getPatches, List.map_map]
      rfl
    rw [hmap, List.get?_map, h]
    rfl
  · intro row e h
    simp [CloudPatchService.getPatchesItem, h, getSettledValue]
  · intro row t h
    simp [CloudPatchService.getPatchesItem, h, getSettledValue]

/-- Witness for C3: three rows whose second download fails — three results, only the
second absent. -/
theorem C3_getPatches_batch_isolation_witness :
    (CloudPatchService.getPatches true dl3 rows3).2.length = 3
    ∧ (CloudPatchService.getPatches true dl3 rows3).2.get? 1 = some none
    ∧ (CloudPatchService.getPatches true dl3 rows3).2.get? 0 =
        some (some { id := "1", draftId := "draft-1", gitProfileId := "dev@example.com",
                     gitRepositoryName := "vscode-gitlens", gitBranchName := "main",
                     contents := "u1" }) := by
  have h := C3_getPatches_batch_isolation dl3 rows3
  refine ⟨by rw [h.1]; rfl, ?_, ?_⟩
  · rw [h.2.1 1 (patchRow0 "2" "u2") rfl,
      h.2.2.1 (patchRow0 "2" "u2") "boom" rfl]
  · rw [h.2.1 0 (patchRow0 "1" "u1") rfl,
      h.2.2.2 (patchRow0 "1" "u1") "u1" rfl]
    rfl

/-- C10: without `includeContents`, `getPatches` issues no download requests and maps
every listed row to a present item carrying the row's metadata and empty contents. -/
theorem C10_getPatches_no_contents
    (download : DownloadRequestM → Except String String) (rows : List PatchRowM) :
    (CloudPatchService.getPatches false download rows).1 = []
    ∧ (CloudPatchService.getPatches false download rows).2 =
        rows.map fun row =>
          some { id := row.id, draftId := row.draftId, gitProfileId := row.gitProfileId,
                 gitRepositoryName := row.gitRepositoryName,
                 gitBranchName := row.gitBranchName, contents := "" } := by
  constructor
  · simp [CloudPatchService.getPatches, CloudPatchService.getPatchesItem]
  · simp only [CloudPatchService.getPatches, List.map_map]
    rfl

/-- C7 counterexample: when the changesets call yields no data (the 404 case the source
notes), `getChangesets` throws and `get` propagates — the whole read fails instead of
degrading to an empty changesets list. -/
theorem C7_absent_changesets_counterexample :
    CloudPatchService.get (.ok draftRow0) (.ok none)
      = .error "TypeError: changesetsData is undefined" := rfl

/-- C7 amended: `get` fetches the draft and its changesets in separate calls; a
changesets response carrying rows (possibly zero rows) yields a `CloudPatch` with those
changesets, but a failed changesets fetch or an absent changesets payload fails the
whole read — the `?? []` fallback is unreachable because `getChangesets` never returns
`undefined`. -/
theorem C7_get_changesets_amended
    (draftFetch : Except String DraftRowM)
    (csFetch : Except String (Option (List ChangesetRowM))) :
    (∀ d rows, draftFetch = .ok d → csFetch = .ok (some rows) →
      CloudPatchService.get draftFetch csFetch =
        .ok (CloudPatchService.mkCloudPatch d (rows.map CloudPatchService.convertChangesetRow)))
    ∧ (∀ e d, csFetch = .error e → draftFetch = .ok d →
        CloudPatchService.get draftFetch csFetch = .error e)
    ∧ (∀ d, csFetch = .ok none → draftFetch = .ok d →
        CloudPatchService.get draftFetch csFetch
          = .error "TypeError: changesetsData is undefined")
    ∧ CloudPatchService.getChangesets csFetch ≠ .ok none := by
  refine ⟨?_, ?_, ?_, ?_⟩
  · intro d rows hd hcs
    subst hd; subst hcs
    rfl
  · intro e d hcs hd
    subst hcs; subst hd
    rfl
  · intro d hcs hd
    subst hcs; subst hd
    rfl
  · cases csFetch with
    | error e => simp [CloudPatchService.getChangesets]
    | ok v =>
      cases v <;> simp [CloudPatchService.getChangesets]

/-- Witness for C7 amended: an empty changesets row list degrades to empty changesets. -/
theorem C7_get_changesets_amended_witness :
    CloudPatchService.get (.ok draftRow0) (.ok (some []))
      = .ok (CloudPatchService.mkCloudPatch draftRow0 []) :=
  (C7_get_changesets_amended (.ok draftRow0) (.ok (some []))).1 draftRow0 [] rfl rfl

/-- C8: evaluated on a concrete successful environment, `create` uploads the raw patch
content to the pre-signed endpoint with its method, but labels the body
`Content-Type: plain/text` (not `text/plain` as claimed); every content download issues
`Accept: text/plain` and returns the raw response text. -/
theorem C8_upload_content_type_eval :
    ((CloudPatchService.create (createEnv0 (some "c0ffee")) "base1" "diff --git a").map
        fun o => o.map fun oc => oc.uploadRequest)
      = .ok (some { url := "https://blob.example/p1", method := "PUT",
                    contentType := "plain/text", hostHeader := "blob.example",
                    body := "diff --git a" })
    ∧ (CloudPatchService.downloadRequest ep0).accept = "text/plain"
    ∧ CloudPatchService.getPatchContents (.ok ep0) (fun _ => .ok "RAW") = .ok "RAW" :=
  ⟨rfl, rfl, rfl⟩

/-- C9 counterexample: an empty-string first-commit id passes the source's
`!= null && != '-'` filter, so `create` sends `initialCommitSha: ""` — while the
claim's filter (from the spec's words) would omit the field. -/
theorem C9_empty_sha_counterexample :
    ((CloudPatchService.create (createEnv0 (some "")) "base1" "diff").map
        fun o => o.map fun oc =>
          oc.changesetRequest.patches.map fun p => p.gitRepoData.initialCommitSha)
      = .ok (some [some ""])
    ∧ CloudPatchService.specInitialCommitSha (some "") = none := ⟨rfl, rfl⟩

/-- C9 amended: the changeset-creation request includes `initialCommitSha` iff the
resolved first-commit id is non-null and not the `'-'` sentinel (an empty string is
not filtered out), and it carries the id unchanged. -/
theorem C9_initial_commit_sha_amended :
    (∀ s : Option String,
      CloudPatchService.gitRepoDataInitialCommitSha s =
        if s = none ∨ s = some "-" then none else s)
    ∧ (∀ (env : CloudPatchService.CreateEnv) (bs cs : String)
        (oc : CloudPatchService.CreateOutcome),
        CloudPatchService.create env bs cs = .ok (some oc) →
        oc.changesetRequest.patches.map (fun p => p.gitRepoData.initialCommitSha)
          = [CloudPatchService.gitRepoDataInitialCommitSha env.repoFirstCommitSha]) := by
  constructor
  · intro s
    cases s with
    | none => rfl
    | some v =>
      by_cases hv : v = "-" <;> simp [CloudPatchService.gitRepoDataInitialCommitSha, hv]
  · intro env bs cs oc h
    unfold CloudPatchService.create at h
    cases hra : CloudPatchService.resolveCreateAncillary env.remoteResult env.userResult
        env.branchResult with
    | error e => rw [hra] at h; simp [Bind.bind, Except.bind] at h
    | ok anc =>
      rw [hra] at h
      simp only [Bind.bind, Except.bind] at h
      cases hdp : env.draftPostResult with
      | error e => rw [hdp] at h; simp [Except.bind] at h
      | ok draftId =>
        rw [hdp] at h
        simp only [Except.bind] at h
        cases hnd : env.newDraftResult with
        | error e => rw [hnd] at h; simp [Except.bind] at h
        | ok nd =>
          rw [hnd] at h
          simp only [Except.bind] at h
          cases nd with
          | none => simp [pure, Except.pure] at h
          | some newDraft =>
            cases hcp : env.changesetPostResult with
            | error e => rw [hcp] at h; simp [Except.bind] at h
            | ok created =>
              rw [hcp] at h
              simp only [Except.bind] at h
              cases hhd : created.patches.head? with
              | none => rw [hhd] at h; simp at h
              | some patch =>
                rw [hhd] at h
                simp only at h
                cases hup : env.uploadResult with
                | error e => rw [hup] at h; simp [Except.bind] at h
                | ok u =>
                  rw [hup] at h
                  simp only [Except.bind] at h
                  cases hfin : env.finalizePatchResult with
                  | error e => rw [hfin] at h; simp [Except.bind] at h
                  | ok f =>
                    rw [hfin] at h
                    simp only [Except.bind, pure, Except.pure] at h
                    have h2 := h.symm
                    injection h2 with h3
                    injection h3 with h4
                    subst h4
                    rfl

/-- Witness for C9 amended at a concrete environment. -/
theorem C9_initial_commit_sha_amended_witness :
    createOutcome0.changesetRequest.patches.map (fun p => p.gitRepoData.initialCommitSha)
      = [CloudPatchService.gitRepoDataInitialCommitSha (some "c0ffee")] :=
  C9_initial_commit_sha_amended.2 (createEnv0 (some "c0ffee")) "base1" "diff --git a"
    createOutcome0 rfl

/-- `ensureCommit` threads the prompted-repository flag through unchanged. -/
theorem PatchDetailsProvider.ensureCommit_promptedRepo
    (env : PatchDetailsProvider.UnreachableEnv) (rv : RepoM) (p : GitPatchM) (pr pb : Bool) :
    (PatchDetailsProvider.ensureCommit env rv p pr pb).promptedRepo = pr := by
  unfold PatchDetailsProvider.ensureCommit
  cases hc : p.commit with
  | some c => rfl
  | none => cases env.materialize rv.uri p.contents (p.baseRef.getD "HEAD") <;> rfl

/-- `ensureCommit` threads the prompted-base flag through unchanged. -/
theorem PatchDetailsProvider.ensureCommit_promptedBase
    (env : PatchDetailsProvider.UnreachableEnv) (rv : RepoM) (p : GitPatchM) (pr pb : Bool) :
    (PatchDetailsProvider.ensureCommit env rv p pr pb).promptedBase = pb := by
  unfold PatchDetailsProvider.ensureCommit
  cases hc : p.commit with
  | some c => rfl
  | none => cases env.materialize rv.uri p.contents (p.baseRef.getD "HEAD") <;> rfl

/-- `ensureBase` threads the prompted-repository flag through unchanged. -/
theorem PatchDetailsProvider.ensureBase_promptedRepo
    (env : PatchDetailsProvider.UnreachableEnv) (rv : RepoM) (p : GitPatchM) (pr : Bool) :
    (PatchDetailsProvider.ensureBase env rv p pr).promptedRepo = pr := by
  unfold PatchDetailsProvider.ensureBase
  cases hb : p.baseRef with
  | some b => exact PatchDetailsProvider.ensureCommit_promptedRepo ..
  | none =>
    cases env.basePick with
    | none => rfl
    | some sha => exact PatchDetailsProvider.ensureCommit_promptedRepo ..

/-- With no base ref set, `ensureBase` prompts the base picker on every path. -/
theorem PatchDetailsProvider.ensureBase_promptedBase_of_none
    (env : PatchDetailsProvider.UnreachableEnv) (rv : RepoM) (p : GitPatchM) (pr : Bool)
    (hb : p.baseRef = none) :
    (PatchDetailsProvider.ensureBase env rv p pr).promptedBase = true := by
  unfold PatchDetailsProvider.ensureBase
  rw [hb]
  cases env.basePick with
  | none => rfl
  | some sha => exact PatchDetailsProvider.ensureCommit_promptedBase ..

/-- C4: `getUnreachablePatchCommit` fails distinctly, in priority order: an unset
repository prompts the repository picker (returning `undefined` when declined, without
prompting for a base); a set repository with an unset base prompts the base picker
(returning `undefined` when declined); and when both are set but materialization
throws, the base ref is reset, an error message is shown, and `undefined` is
returned. -/
theorem C4_getUnreachablePatchCommit_guards
    (env : PatchDetailsProvider.UnreachableEnv) (p : GitPatchM) :
    (p.repo = none → env.repoPick = none →
      PatchDetailsProvider.getUnreachablePatchCommit env (some (.localPS p))
        = .ok { result := none, patch := p, promptedRepo := true, promptedBase := false,
                errorShown := none })
    ∧ (p.repo = none → ∀ out,
        PatchDetailsProvider.getUnreachablePatchCommit env (some (.localPS p)) = .ok out →
        out.promptedRepo = true)
    ∧ (∀ r, p.repo = some r → p.baseRef = none →
        (∀ out,
          PatchDetailsProvider.getUnreachablePatchCommit env (some (.localPS p)) = .ok out →
          out.promptedRepo = false ∧ out.promptedBase = true)
        ∧ (env.basePick = none →
            PatchDetailsProvider.getUnreachablePatchCommit env (some (.localPS p))
              = .ok { result := none, patch := p, promptedRepo := false,
                      promptedBase := true, errorShown := none }))
    ∧ (∀ r b e, p.repo = some r → p.baseRef = some b → p.commit = none →
        env.materialize r.uri p.contents b = .error e →
        PatchDetailsProvider.getUnreachablePatchCommit env (some (.localPS p))
          = .ok { result := none, patch := { p with baseRef := none },
                  promptedRepo := false, promptedBase := false,
                  errorShown := some ("Unable preview the patch on base " ++ b ++ ": " ++ e) }) := by
  refine ⟨?_, ?_, ?_, ?_⟩
  · intro hrepo hpick
    simp [PatchDetailsProvider.getUnreachablePatchCommit, PatchDetailsProvider.derefDetailsPatch,
      hrepo, hpick]
  · intro hrepo out hout
    simp only [PatchDetailsProvider.getUnreachablePatchCommit,
      PatchDetailsProvider.derefDetailsPatch, hrepo] at hout
    cases hpick : env.repoPick with
    | none =>
      rw [hpick] at hout
      injection hout with hout
      rw [← hout]
    | some r =>
      rw [hpick] at hout
      injection hout with hout
      rw [← hout]
      exact PatchDetailsProvider.ensureBase_promptedRepo ..
  · intro r hrepo hbase
    constructor
    · intro out hout
      simp only [PatchDetailsProvider.getUnreachablePatchCommit,
        PatchDetailsProvider.derefDetailsPatch, hrepo] at hout
      injection hout with hout
      rw [← hout]
      exact ⟨PatchDetailsProvider.ensureBase_promptedRepo ..,
        PatchDetailsProvider.ensureBase_promptedBase_of_none env r p false hbase⟩
    · intro hpick
      simp [PatchDetailsProvider.getUnreachablePatchCommit,
        PatchDetailsProvider.derefDetailsPatch, hrepo, PatchDetailsProvider.ensureBase,
        hbase, hpick]
  · intro r b e hrepo hbase hcommit hmz
    simp [PatchDetailsProvider.getUnreachablePatchCommit,
      PatchDetailsProvider.derefDetailsPatch, hrepo, PatchDetailsProvider.ensureBase,
      hbase, PatchDetailsProvider.ensureCommit, hcommit, hmz]

/-- Witness for C4: repository and base set, materialization throwing. -/
theorem C4_getUnreachablePatchCommit_guards_witness :
    PatchDetailsProvider.getUnreachablePatchCommit unreachableEnv0 (some (.localPS gitPatch0))
      = .ok { result := none, patch := { gitPatch0 with baseRef := none },
              promptedRepo := false, promptedBase := false,
              errorShown := some "Unable preview the patch on base abc123: bad object" } :=
  (C4_getUnreachablePatchCommit_guards unreachableEnv0 gitPatch0).2.2.2
    { uri := "file:///repo" } "abc123" "bad object" rfl rfl rfl rfl

/-- C5 counterexample: on a patch with missing file metadata the projection schedules
the enrichment task, but that task re-enters the reconciler through `updateState()`
with its default `immediate = false` (a debounced notification), not
`scheduleNotify(immediate = true)` as claimed. -/
theorem C5_enrichment_not_immediate_counterexample :
    (PatchDetailsProvider.getDetailsModel patchset0).map (fun dr => dr.enrichmentScheduled)
        = some true
    ∧ (PatchDetailsProvider.enrichmentTask patchset0 (some ["f.txt"])).notifyImmediate
        = false := ⟨rfl, rfl⟩

/-- C5 amended: with missing file metadata, `getDetailsModel` returns details without
`files` and schedules the one-shot enrichment task, which stores the computed diff
files on the same patch object and pushes `updatePending({patch}, force = true)`
followed by a debounced `updateState()` (`immediate = false`); with files present no
task is scheduled. -/
theorem C5_enrichment_amended (ps : PatchSetM) (p : GitPatchM)
    (hderef : PatchDetailsProvider.derefDetailsPatch ps = some p) :
    (p.files = none →
      (∃ dr, PatchDetailsProvider.getDetailsModel ps = some dr
        ∧ dr.details.files = none ∧ dr.enrichmentScheduled = true))
    ∧ (∀ fs, p.files = some fs →
      (∃ dr, PatchDetailsProvider.getDetailsModel ps = some dr
        ∧ dr.details.files = some fs ∧ dr.enrichmentScheduled = false))
    ∧ (∀ diff, (PatchDetailsProvider.enrichmentTask ps diff).pendingUpdateForce = true
        ∧ (PatchDetailsProvider.enrichmentTask ps diff).notifyImmediate = false
        ∧ (PatchDetailsProvider.enrichmentTask ps diff).updatedPatchset
            = PatchDetailsProvider.setPatchFiles ps diff
        ∧ PatchDetailsProvider.derefDetailsPatch (PatchDetailsProvider.setPatchFiles ps diff)
            = some { p with files := diff }) := by
  refine ⟨?_, ?_, ?_⟩
  · intro hfiles
    refine ⟨{ details := { isLocal := (match ps with | .localPS _ => true | .cloudPS _ => false),
                           files := p.files },
              enrichmentScheduled := p.files.isNone }, ?_, ?_, ?_⟩
    · simp only [PatchDetailsProvider.getDetailsModel, hderef, Option.map_some]
      cases ps <;> rfl
    · simp [hfiles]
    · simp [hfiles]
  · intro fs hfiles
    refine ⟨{ details := { isLocal := (match ps with | .localPS _ => true | .cloudPS _ => false),
                           files := p.files },
              enrichmentScheduled := p.files.isNone }, ?_, ?_, ?_⟩
    · simp only [PatchDetailsProvider.getDetailsModel, hderef, Option.map_some]
      cases ps <;> rfl
    · simp [hfiles]
    · simp [hfiles]
  · intro diff
    refine ⟨rfl, rfl, rfl, ?_⟩
    cases ps with
    | localPS q =>
      simp only [PatchDetailsProvider.derefDetailsPatch, Option.some.injEq] at hderef
      subst hderef
      rfl
    | cloudPS css =>
      cases css with
      | nil => simp [PatchDetailsProvider.derefDetailsPatch] at hderef
      | cons cs rest =>
        have hderef2 : cs.patches.head? = some p := hderef
        cases hps : cs.patches with
        | nil => rw [hps] at hderef2; simp at hderef2
        | cons q qs =>
          rw [hps] at hderef2
          have h3 : some q = some p := hderef2
          injection h3 with h4
          subst h4
          simp [PatchDetailsProvider.setPatchFiles, PatchDetailsProvider.derefDetailsPatch,
            List.modifyHead, hps]

/-- Witness for C5 amended at the concrete local patchset with missing metadata. -/
theorem C5_enrichment_amended_witness :
    (PatchDetailsProvider.enrichmentTask patchset0 (some ["f.txt"])).pendingUpdateForce = true
    ∧ (PatchDetailsProvider.enrichmentTask patchset0 (some ["f.txt"])).updatedPatchset
        = PatchDetailsProvider.setPatchFiles patchset0 (some ["f.txt"]) :=
  have h := C5_enrichment_amended patchset0
    { contents := "diff --git", baseRef := none, files := none, repo := none, commit := none }
    rfl
  ⟨(h.2.2 (some ["f.txt"])).1, (h.2.2 (some ["f.txt"])).2.2.1⟩

/-- Spreading an absent overlay is the identity. -/
theorem effOf_none {κ ν : Type} (c : Ctx κ ν) : effOf c none = c := rfl

/-- `spreadCtx` agrees with `effOf` on a present overlay. -/
theorem spreadCtx_eq_effOf {κ ν : Type} (c : Ctx κ ν) (p : Overlay κ ν) :
    spreadCtx c p = effOf c (some p) := rfl

/-- One `upcStep` changes the effective context exactly like one idealized entry
assignment (a skipped write is skipped only because the value already matches). -/
theorem PatchDetailsProvider.upcStep_eff {κ ν : Type} [DecidableEq κ] [DecidableEq ν]
    (c : Ctx κ ν) (acc : Bool × Option (Overlay κ ν)) (kv : κ × ν) :
    effOf c (PatchDetailsProvider.upcStep c false acc kv).2
      = PatchDetailsProvider.assignEntry (effOf c acc.2) kv := by
  unfold PatchDetailsProvider.upcStep
  split
  next h =>
    funext k
    by_cases hk : k = kv.1
    · subst hk
      simp only [PatchDetailsProvider.assignEntry, if_pos rfl]
      exact h.2.symm
    · simp [PatchDetailsProvider.assignEntry, hk]
  next h =>
    funext k
    by_cases hk : k = kv.1
    · subst hk
      simp [effOf, PatchDetailsProvider.assignEntry]
    · simp [effOf, PatchDetailsProvider.assignEntry, hk]

/-- Folding `upcStep` over the entries transforms the effective context by
`specApply`. -/
theorem PatchDetailsProvider.upcFold_eff {κ ν : Type} [DecidableEq κ] [DecidableEq ν]
    (c : Ctx κ ν) (es : List (κ × ν)) :
    ∀ acc : Bool × Option (Overlay κ ν),
      effOf c (es.foldl (PatchDetailsProvider.upcStep c false) acc).2
        = PatchDetailsProvider.specApply (effOf c acc.2) es := by
  induction es with
  | nil => intro acc; rfl
  | cons kv es ih =>
    intro acc
    rw [List.foldl_cons, ih]
    rw [PatchDetailsProvider.upcStep_eff]
    rfl

/-- Once the changed flag is set it stays set across the fold. -/
theorem PatchDetailsProvider.upcFold_fst_true {κ ν : Type} [DecidableEq κ] [DecidableEq ν]
    (c : Ctx κ ν) (force : Bool) (es : List (κ × ν)) :
    ∀ p, (es.foldl (PatchDetailsProvider.upcStep c force) (true, p)).1 = true := by
  induction es with
  | nil => intro p; rfl
  | cons kv es ih =>
    intro p
    rw [List.foldl_cons]
    have h : PatchDetailsProvider.upcStep c force (true, p) kv
        = (true, (PatchDetailsProvider.upcStep c force (true, p) kv).2) := by
      unfold PatchDetailsProvider.upcStep
      split <;> rfl
    rw [h]
    exact ih _

/-- When the fold reports no change, it also left the accumulator untouched
(the merged overlay is the original pending overlay). -/
theorem PatchDetailsProvider.upc_unchanged {κ ν : Type} [DecidableEq κ] [DecidableEq ν]
    (c : Ctx κ ν) (es : List (κ × ν)) :
    ∀ acc, (es.foldl (PatchDetailsProvider.upcStep c false) acc).1 = false →
      es.foldl (PatchDetailsProvider.upcStep c false) acc = acc := by
  induction es with
  | nil => intro acc _; rfl
  | cons kv es ih =>
    intro acc h
    rw [List.foldl_cons] at h ⊢
    by_cases hsk : kv.2 = effOf c acc.2 kv.1
    · have hstep : PatchDetailsProvider.upcStep c false acc kv = acc := by
        unfold PatchDetailsProvider.upcStep
        simp [hsk]
      rw [hstep] at h ⊢
      exact ih acc h
    · have hstep : PatchDetailsProvider.upcStep c false acc kv
          = (true, (PatchDetailsProvider.upcStep c false acc kv).2) := by
        unfold PatchDetailsProvider.upcStep
        simp [hsk]
      rw [hstep] at h
      rw [PatchDetailsProvider.upcFold_fst_true] at h
      exact absurd h (by simp)

/-- The provider update step never touches the committed context. -/
theorem PatchDetailsProvider.applyPendingUpdate_context {κ ν : Type} [DecidableEq κ]
    [DecidableEq ν] (s : RecState κ ν) (u : List (κ × ν)) (force : Bool) :
    (PatchDetailsProvider.applyPendingUpdate s u force).context = s.context := by
  simp only [PatchDetailsProvider.applyPendingUpdate]
  split <;> rfl

/-- The provider update step transforms the effective context by `specApply`
(whether or not the change-detection stored a new overlay). -/
theorem PatchDetailsProvider.applyPendingUpdate_eff {κ ν : Type} [DecidableEq κ]
    [DecidableEq ν] (s : RecState κ ν) (u : List (κ × ν)) :
    effOf s.context (PatchDetailsProvider.applyPendingUpdate s u false).pending
      = PatchDetailsProvider.specApply (effOf s.context s.pending) u := by
  simp only [PatchDetailsProvider.applyPendingUpdate]
  by_cases h : (PatchDetailsProvider.updatePendingContext s.context s.pending u false).1 = true
  · simp only [h, if_true]
    exact PatchDetailsProvider.upcFold_eff s.context u (false, s.pending)
  · simp only [h, if_false]
    have h2 := PatchDetailsProvider.upc_unchanged s.context u (false, s.pending)
      (by simpa using h)
    have h3 := PatchDetailsProvider.upcFold_eff s.context u (false, s.pending)
    rw [h2] at h3
    exact h3

/-- Unfolding one update event off the front of a burst. -/
theorem PatchDetailsProvider.foldUpdates_cons {κ ν : Type} [DecidableEq κ] [DecidableEq ν]
    (s : RecState κ ν) (u : List (κ × ν)) (ups : List (List (κ × ν))) :
    PatchDetailsProvider.foldUpdates s (u :: ups)
      = PatchDetailsProvider.foldUpdates
          { PatchDetailsProvider.applyPendingUpdate s u false with debounceScheduled := true }
          ups := rfl

/-- A burst of update events never touches the committed context. -/
theorem PatchDetailsProvider.foldUpdates_context {κ ν : Type} [DecidableEq κ] [DecidableEq ν]
    (ups : List (List (κ × ν))) :
    ∀ s : RecState κ ν, (PatchDetailsProvider.foldUpdates s ups).context = s.context := by
  induction ups with
  | nil => intro s; rfl
  | cons u ups ih =>
    intro s
    rw [PatchDetailsProvider.foldUpdates_cons, ih]
    exact PatchDetailsProvider.applyPendingUpdate_context ..

/-- A burst of update events transforms the effective context by the idealized
last-writer-wins merge of all its partial updates. -/
theorem PatchDetailsProvider.foldUpdates_eff {κ ν : Type} [DecidableEq κ] [DecidableEq ν]
    (ups : List (List (κ × ν))) :
    ∀ s : RecState κ ν,
      effOf s.context (PatchDetailsProvider.foldUpdates s ups).pending
        = PatchDetailsProvider.specMergeAll (effOf s.context s.pending) ups := by
  induction ups with
  | nil => intro s; rfl
  | cons u ups ih =>
    intro s
    rw [PatchDetailsProvider.foldUpdates_cons]
    have h1 := ih { PatchDetailsProvider.applyPendingUpdate s u false with
      debounceScheduled := true }
    rw [show ({ PatchDetailsProvider.applyPendingUpdate s u false with
        debounceScheduled := true } : RecState κ ν).context = s.context from
      PatchDetailsProvider.applyPendingUpdate_context ..] at h1
    rw [h1]
    exact congrArg (fun x => PatchDetailsProvider.specMergeAll x ups)
      (PatchDetailsProvider.applyPendingUpdate_eff s u)

/-- A nonempty burst of update events leaves the debounce armed. -/
theorem PatchDetailsProvider.foldUpdates_sched {κ ν : Type} [DecidableEq κ] [DecidableEq ν]
    (ups : List (List (κ × ν))) :
    ∀ s : RecState κ ν, ups ≠ [] →
      (PatchDetailsProvider.foldUpdates s ups).debounceScheduled = true := by
  induction ups with
  | nil => intro s h; exact absurd rfl h
  | cons u rest ih =>
    intro s _
    cases rest with
    | nil => rfl
    | cons v vs =>
      rw [PatchDetailsProvider.foldUpdates_cons]
      exact ih _ (by simp)

/-- A run of update events emits no notification and folds the updates. -/
theorem PatchDetailsProvider.runEvents_updates {κ ν : Type} [DecidableEq κ] [DecidableEq ν]
    (ups : List (List (κ × ν))) :
    ∀ s : RecState κ ν,
      PatchDetailsProvider.runEvents s (ups.map PatchDetailsProvider.REvent.update)
        = (PatchDetailsProvider.foldUpdates s ups, []) := by
  induction ups with
  | nil => intro s; rfl
  | cons u ups ih =>
    intro s
    simp only [List.map_cons, PatchDetailsProvider.runEvents, PatchDetailsProvider.stepEvent]
    rw [ih]
    rfl

/-- Splitting a run of events at an append. -/
theorem PatchDetailsProvider.runEvents_append {κ ν : Type} [DecidableEq κ] [DecidableEq ν]
    (l1 l2 : List (PatchDetailsProvider.REvent κ ν)) :
    ∀ s : RecState κ ν,
      PatchDetailsProvider.runEvents s (l1 ++ l2)
        = ((PatchDetailsProvider.runEvents (PatchDetailsProvider.runEvents s l1).1 l2).1,
           (PatchDetailsProvider.runEvents s l1).2
             ++ (PatchDetailsProvider.runEvents (PatchDetailsProvider.runEvents s l1).1 l2).2) := by
  induction l1 with
  | nil => intro s; simp [PatchDetailsProvider.runEvents]
  | cons e es ih =>
    intro s
    simp only [List.cons_append, PatchDetailsProvider.runEvents, List.append_eq]
    rw [ih]
    simp [List.append_assoc]

/-- C2: a flush with `force = false` and no pending overlay is a no-op that does not
notify; otherwise it commits `{ ...context, ...pending }` (shallow last-writer-wins per
field), clears the pending overlay and builds the emitted snapshot from the new
committed context; concretely, pending `{a: 1}` then `{a: 2, b: 3}` commits to
`{a: 2, b: 3}`. -/
theorem C2_flush_merge :
    (∀ (κ ν : Type) (s : RecState κ ν), s.pending = none →
      PatchDetailsProvider.notifyDidChangeState false s
        = ({ s with debounceScheduled := false }, none))
    ∧ (∀ (κ ν : Type) (s : RecState κ ν) (p : Overlay κ ν) (force : Bool),
        s.pending = some p →
        PatchDetailsProvider.notifyDidChangeState force s
          = ({ context := spreadCtx s.context p, pending := none,
               debounceScheduled := false },
             some (spreadCtx s.context p)))
    ∧ ((PatchDetailsProvider.notifyDidChangeState false recStateEx2).1.context FieldAB.a = 2
        ∧ (PatchDetailsProvider.notifyDidChangeState false recStateEx2).1.context FieldAB.b = 3
        ∧ (PatchDetailsProvider.notifyDidChangeState false recStateEx2).1.pending = none
        ∧ (PatchDetailsProvider.notifyDidChangeState false recStateEx2).2.map
            (fun f => (f FieldAB.a, f FieldAB.b)) = some (2, 3)) := by
  refine ⟨?_, ?_, rfl, rfl, rfl, rfl⟩
  · intro κ ν s h
    simp [PatchDetailsProvider.notifyDidChangeState, h]
  · intro κ ν s p force h
    simp [PatchDetailsProvider.notifyDidChangeState, h]

/-- Witness for C2's hypothesis-bearing clause at a concrete state. -/
theorem C2_flush_merge_witness :
    PatchDetailsProvider.notifyDidChangeState false recStateA5
      = ({ recStateA5 with debounceScheduled := false }, none) :=
  C2_flush_merge.1 FieldAB Nat recStateA5 rfl

/-- C6 counterexample: one `updatePending` call whose touched field already carries the
committed value is dropped by the change detection, so the expired debounce window
delivers zero notifications — not exactly one as claimed. -/
theorem C6_redundant_updates_counterexample :
    (PatchDetailsProvider.runEvents recStateA5
        [PatchDetailsProvider.REvent.update [(FieldAB.a, 5)],
         PatchDetailsProvider.REvent.timer]).2.length = 0 := rfl

/-- C6 amended: for every burst of N ≥ 1 `updatePending` calls inside one debounce
window, at least one of which actually changes a field, the expired window delivers
exactly one notification whose snapshot is built from the shallow last-writer-wins
merge of all N partial updates over the committed context. -/
theorem C6_debounce_collapsing_amended (κ ν : Type) [DecidableEq κ] [DecidableEq ν]
    (c0 : Ctx κ ν) (sched : Bool) (ups : List (List (κ × ν)))
    (hne : ups ≠ [])
    (hchanged : (PatchDetailsProvider.foldUpdates
        { context := c0, pending := none, debounceScheduled := sched } ups).pending.isSome
      = true) :
    PatchDetailsProvider.runEvents
        { context := c0, pending := none, debounceScheduled := sched }
        (ups.map PatchDetailsProvider.REvent.update ++ [PatchDetailsProvider.REvent.timer])
      = ({ context := PatchDetailsProvider.specMergeAll c0 ups, pending := none,
           debounceScheduled := false },
         [PatchDetailsProvider.specMergeAll c0 ups]) := by
  set s0 : RecState κ ν := { context := c0, pending := none, debounceScheduled := sched }
    with hs0
  obtain ⟨p, hp⟩ := Option.isSome_iff_exists.mp hchanged
  have hsched := PatchDetailsProvider.foldUpdates_sched ups s0 hne
  have hctx : (PatchDetailsProvider.foldUpdates s0 ups).context = s0.context :=
    PatchDetailsProvider.foldUpdates_context ups s0
  have heff := PatchDetailsProvider.foldUpdates_eff ups s0
  rw [hp] at heff
  have htimer : PatchDetailsProvider.runEvents (PatchDetailsProvider.foldUpdates s0 ups)
      [PatchDetailsProvider.REvent.timer]
      = ({ context := spreadCtx (PatchDetailsProvider.foldUpdates s0 ups).context p,
           pending := none, debounceScheduled := false },
         [spreadCtx (PatchDetailsProvider.foldUpdates s0 ups).context p]) := by
    simp [PatchDetailsProvider.runEvents, PatchDetailsProvider.stepEvent,
      PatchDetailsProvider.notifyDidChangeState, hsched, hp]
  have hrun := PatchDetailsProvider.runEvents_append
    (ups.map PatchDetailsProvider.REvent.update) [PatchDetailsProvider.REvent.timer] s0
  rw [PatchDetailsProvider.runEvents_updates] at hrun
  dsimp only at hrun
  rw [htimer] at hrun
  dsimp only at hrun
  rw [hrun]
  have hsp : spreadCtx (PatchDetailsProvider.foldUpdates s0 ups).context p
      = PatchDetailsProvider.specMergeAll c0 ups := by
    rw [spreadCtx_eq_effOf, hctx]
    exact heff
  rw [hsp]
  rfl

/-- Witness for C6 amended: two effective updates, one timer expiry, one notification. -/
theorem C6_debounce_collapsing_amended_witness :
    (PatchDetailsProvider.runEvents recStateZero
        ([[(FieldAB.a, 1)], [(FieldAB.a, 2), (FieldAB.b, 3)]].map
            PatchDetailsProvider.REvent.update
          ++ [PatchDetailsProvider.REvent.timer])).2.length = 1 :=
  congrArg (fun r => r.2.length)
    (C6_debounce_collapsing_amended FieldAB Nat ctxZero false
      [[(FieldAB.a, 1)], [(FieldAB.a, 2), (FieldAB.b, 3)]] (by simp) (by rfl))
